import Mathlib

/-!
Shallow embedding of the `mkvstore` key-value store (Go, SQLite-backed).

Instants are modelled as integer nanoseconds since the Unix epoch, matching
Go's `time.Time` (which stores whole seconds plus a nanosecond remainder in
`[0, 10^9)`).  `time.Time.Unix()` is therefore floor division by `10^9`.
The backing SQL table is modelled as an association list from keys to rows;
`Open` creates the table empty, with the `type` column defaulting to
`"string"`.  Row-producing SQL statements are modelled by the data they
return; collaborator failures are modelled explicitly: each operation's
statement can fault (the `Fallible` variants and `Keys`' query flag), and
inside `Keys` a row-level `Scan` failure and a failure of the final
`rows.Err()` check are distinguished, as in the source.
-/

namespace MKVStore

/-- Nanoseconds in one second: the conversion factor of Go `time.Duration`
and the divisor of `time.Time.Unix()`. -/
def nsPerSec : Int := 1000000000

/-- Go `time.Time.Unix()` for an instant given in nanoseconds since the
epoch: floor division by `10^9` (Go keeps seconds and a nonnegative
sub-second remainder, so `Unix()` is the floor of the instant in seconds). -/
def goUnix (ns : Int) : Int := Int.fdiv ns nsPerSec

/-- One row of the backing table: columns `value`, `type` (the kind tag,
default `'string'`) and `expires_at` (`NULL` modelled by `none`; seconds
since the epoch otherwise).  The `key` column is the association-list key. -/
structure Row where
  value : String
  type : String
  expiresAt : Option Int
  deriving DecidableEq, Repr

/-- The backing table: at most one row per key (maintained by `upsert`),
looked up by primary key with `List.lookup`. -/
abbrev Table := List (String × Row)

/-- The error taxonomy of the store: `ErrKeyNotFound`, `ErrWrongType`
(from the errors file) and storage-collaborator failures, which every
operation wraps with `fmt.Errorf` naming the operation and the key (or
pattern) before returning them: `storageFault op ctx` models the wrapped
failure and its context. -/
inductive KVError where
  | keyNotFound
  | wrongType
  | storageFault (op ctx : String)
  deriving DecidableEq, Repr

/-- SQLite `INSERT OR REPLACE`: the new row fully replaces any previous row
with the same key. -/
def upsert (st : Table) (k : String) (r : Row) : Table :=
  (k, r) :: st.filter (fun p => p.1 != k)

/-- `Store.Set`: `expiresAt = time.Now().Add(ttl).Unix()` when `ttl > 0`,
`NULL` otherwise, then `INSERT OR REPLACE` of the full row with
`type = 'string'`.  `ttl` is in nanoseconds (Go `time.Duration`). -/
def storeSet (st : Table) (nowNs : Int) (key value : String) (ttl : Int) : Table :=
  upsert st key ⟨value, "string", if ttl > 0 then some (goUnix (nowNs + ttl)) else none⟩

/-- `Store.Del`: `DELETE FROM t WHERE key = ?`.  Absent a collaborator
failure the result is `ok` whether or not the key was present. -/
def storeDel (st : Table) (key : String) : Except KVError Unit × Table :=
  (Except.ok (), st.filter (fun p => p.1 != key))

/-- `Store.Get`: row lookup, then the kind-tag check (`type != "string"`
yields `ErrWrongType`), then the expiry check
`expiresAt.Valid && time.Now().Unix() > expiresAt`; an expired row makes
`Get` request an asynchronous `Del` of the key (second component) and fail
with `ErrKeyNotFound`. -/
def storeGet (st : Table) (nowNs : Int) (key : String) :
    Except KVError String × List String :=
  match List.lookup key st with
  | none => (Except.error KVError.keyNotFound, [])
  | some r =>
    if r.type ≠ "string" then (Except.error KVError.wrongType, [])
    else
      match r.expiresAt with
      | some e =>
        if goUnix nowNs > e then (Except.error KVError.keyNotFound, [key])
        else (Except.ok r.value, [])
      | none => (Except.ok r.value, [])

/-- `Store.Exists`: row lookup of `type` and `expires_at` only; the kind tag
is not consulted.  An expired row requests an asynchronous `Del` and the
result is `false`; an absent row is `false`; otherwise `true`. -/
def storeExists (st : Table) (nowNs : Int) (key : String) :
    Except KVError Bool × List String :=
  match List.lookup key st with
  | none => (Except.ok false, [])
  | some r =>
    match r.expiresAt with
    | some e =>
      if goUnix nowNs > e then (Except.ok false, [key])
      else (Except.ok true, [])
    | none => (Except.ok true, [])

/-- `Store.TTL`: row lookup, the kind-tag check, then: `NULL` expiry yields
the sentinel `-1` (one negative nanosecond, as in the source); otherwise the
expiry instant `time.Unix(expiresAt, 0)` (whole seconds, so `expiresAt·10^9`
nanoseconds) is compared with full-precision `time.Now()` via `Before`
(strict less-than); an expired row requests an asynchronous `Del` and fails
with `ErrKeyNotFound`; otherwise the remaining duration `expiry − now` in
nanoseconds is returned. -/
def storeTTL (st : Table) (nowNs : Int) (key : String) :
    Except KVError Int × List String :=
  match List.lookup key st with
  | none => (Except.error KVError.keyNotFound, [])
  | some r =>
    if r.type ≠ "string" then (Except.error KVError.wrongType, [])
    else
      match r.expiresAt with
      | none => (Except.ok (-1), [])
      | some e =>
        if e * nsPerSec < nowNs then (Except.error KVError.keyNotFound, [key])
        else (Except.ok (e * nsPerSec - nowNs), [])

/-- One fetched row of the `Keys` scan, as produced by `rows.Next` plus
`rows.Scan`: either the three scanned columns, or a row-level `Scan`
failure. -/
inductive RowRes where
  | ok (key type : String) (expiresAt : Option Int)
  | scanErr
  deriving DecidableEq, Repr

/-- The per-row expiry test used inside the `Keys` loop:
`expiresAt.Valid && time.Now().Unix() > expiresAt`. -/
def rowExpired (nowNs : Int) : Option Int → Bool
  | some e => decide (goUnix nowNs > e)
  | none => false

/-- The `for rows.Next()` loop of `Store.Keys`: a `Scan` failure is logged
and the row skipped; a row with `type != "string"` is skipped; an expired
row is appended to `keysToDelete`; every other row's key is appended to the
result.  Returns `(keys, keysToDelete)` in row order. -/
def keysLoop (nowNs : Int) : List RowRes → List String × List String
  | [] => ([], [])
  | RowRes.scanErr :: rest => keysLoop nowNs rest
  | RowRes.ok k t e :: rest =>
    if t ≠ "string" then keysLoop nowNs rest
    else if rowExpired nowNs e then
      ((keysLoop nowNs rest).1, k :: (keysLoop nowNs rest).2)
    else
      (k :: (keysLoop nowNs rest).1, (keysLoop nowNs rest).2)

/-- `Store.Keys`: a failure of `s.db.Query` itself (`queryErr`) is returned
at once, wrapped with the pattern, nothing scanned and no deletion issued;
otherwise the scan loop runs over the matched rows, then the `rows.Err()`
check (`iterErr`; on failure the wrapped error is returned and no deletions
are issued), then the collected expired keys are requested for asynchronous
deletion (second component). -/
def storeKeys (queryErr : Bool) (nowNs : Int) (pattern : String)
    (rows : List RowRes) (iterErr : Bool) :
    Except KVError (List String) × List String :=
  if queryErr then (Except.error (KVError.storageFault "query keys" pattern), [])
  else if iterErr then (Except.error (KVError.storageFault "iterate keys" pattern), [])
  else (Except.ok (keysLoop nowNs rows).1, (keysLoop nowNs rows).2)

/-- `Store.Set` including the collaborator outcome: a failure of the upsert
`Exec` (`dbFault`) is returned wrapped with the key, leaving the table
unchanged; otherwise the upsert of `storeSet` is performed. -/
def storeSetFallible (dbFault : Bool) (st : Table) (nowNs : Int)
    (key value : String) (ttl : Int) : Except KVError Unit × Table :=
  if dbFault then (Except.error (KVError.storageFault "set" key), st)
  else (Except.ok (), storeSet st nowNs key value ttl)

/-- `Store.Del` including the collaborator outcome: a failure of the delete
`Exec` (`dbFault`) is returned wrapped with the key, leaving the table
unchanged; otherwise `storeDel`. -/
def storeDelFallible (dbFault : Bool) (st : Table) (key : String) :
    Except KVError Unit × Table :=
  if dbFault then (Except.error (KVError.storageFault "delete" key), st)
  else storeDel st key

/-- `Store.Get` including the collaborator outcome: a `row.Scan` failure
other than `sql.ErrNoRows` (`dbFault`) is returned wrapped with the key,
before any kind-tag or expiry logic and with no deletion requested;
otherwise `storeGet`. -/
def storeGetFallible (dbFault : Bool) (st : Table) (nowNs : Int) (key : String) :
    Except KVError String × List String :=
  if dbFault then (Except.error (KVError.storageFault "get" key), [])
  else storeGet st nowNs key

/-- `Store.Exists` including the collaborator outcome: a `row.Scan` failure
other than `sql.ErrNoRows` (`dbFault`) is returned wrapped with the key,
with no deletion requested; otherwise `storeExists`. -/
def storeExistsFallible (dbFault : Bool) (st : Table) (nowNs : Int) (key : String) :
    Except KVError Bool × List String :=
  if dbFault then (Except.error (KVError.storageFault "exists" key), [])
  else storeExists st nowNs key

/-- `Store.TTL` including the collaborator outcome: a `row.Scan` failure
other than `sql.ErrNoRows` (`dbFault`) is returned wrapped with the key,
before any kind-tag or expiry logic and with no deletion requested;
otherwise `storeTTL`. -/
def storeTTLFallible (dbFault : Bool) (st : Table) (nowNs : Int) (key : String) :
    Except KVError Int × List String :=
  if dbFault then (Except.error (KVError.storageFault "ttl" key), [])
  else storeTTL st nowNs key

/-- An observable event of one `Store.Keys` call: reading one row of the
result set, or issuing one asynchronous deletion (`go s.Del(key)`). -/
inductive KeysEvent where
  | scanRow (r : RowRes)
  | asyncDel (k : String)
  deriving DecidableEq, Repr

/-- The event order of one `Store.Keys` call, as in the source: the loop
reads every matched row, then (only when `rows.Err()` reported no failure)
the deletions collected in `keysToDelete` are issued, after the loop. -/
def keysTrace (nowNs : Int) (rows : List RowRes) (iterErr : Bool) : List KeysEvent :=
  rows.map KeysEvent.scanRow ++
    (if iterErr then [] else (keysLoop nowNs rows).2.map KeysEvent.asyncDel)

/-- Outcome of `Store.RunCleanup`: whether the background sweeper goroutine
was started, and whether a rejection was reported (printed) instead. -/
structure CleanupOutcome where
  started : Bool
  rejectionReported : Bool
  deriving DecidableEq, Repr

/-- `Store.RunCleanup`: a `nil` database handle or a non-positive interval
is reported and nothing is started; otherwise the ticker goroutine starts.
The function never touches the table and never returns an error. -/
def runCleanup (dbOpen : Bool) (intervalNs : Int) : CleanupOutcome :=
  if !dbOpen then ⟨false, true⟩
  else if intervalNs ≤ 0 then ⟨false, true⟩
  else ⟨true, false⟩

/-- One sweeper tick: `DELETE FROM t WHERE expires_at IS NOT NULL AND
expires_at < ?` with `? = time.Now().Unix()`. -/
def sweepExpired (st : Table) (nowSec : Int) : Table :=
  st.filter (fun p =>
    match p.2.expiresAt with
    | some e => !decide (e < nowSec)
    | none => true)

/-- The statements that can mutate the table through the public surface:
`Set`'s upsert, `Del`'s delete-by-key (also issued by every lazy
expiry-triggered asynchronous deletion from `Get`/`Exists`/`TTL`/`Keys`),
and the sweeper's bulk delete.  No other statement in the store writes. -/
inductive WOp where
  | set (key value : String) (nowNs ttl : Int)
  | del (key : String)
  | sweep (nowSec : Int)

/-- Apply one mutating statement to the table. -/
def applyW (st : Table) : WOp → Table
  | WOp.set k v now ttl => storeSet st now k v ttl
  | WOp.del k => (storeDel st k).2
  | WOp.sweep now => sweepExpired st now

/-- The table reached from the freshly created (empty) table by a sequence
of mutating statements. -/
def runOps (ops : List WOp) : Table := ops.foldl applyW []

/-- Every row of the table carries the kind tag `"string"`. -/
def allStringRows (st : Table) : Prop := ∀ p ∈ st, (p.2).type = "string"

/-- `globToSQLLike`, on the character sequence of the pattern: the
`strings.NewReplacer` with the four single-character patterns
`% ↦ \%`, `_ ↦ \_`, `* ↦ %`, `? ↦ _` replaces left to right in a single
pass, never rescanning replacement text, hence character by character. -/
def globToSQLLike : List Char → List Char
  | [] => []
  | c :: rest =>
    (if c = '%' then ['\\', '%']
     else if c = '_' then ['\\', '_']
     else if c = '*' then ['%']
     else if c = '?' then ['_']
     else [c]) ++ globToSQLLike rest

/-- The spec's description of the translator, per character: literal `%`
becomes `\%`, literal `_` becomes `\_`, `*` becomes the any-sequence
wildcard `%`, `?` becomes the any-single-character wildcard `_`, everything
else passes through unchanged. -/
def translateChar (c : Char) : List Char :=
  if c = '%' then ['\\', '%']
  else if c = '_' then ['\\', '_']
  else if c = '*' then ['%']
  else if c = '?' then ['_']
  else [c]

/-! Helper lemmas shared by the theorems below. -/

/-- Floor division by `10^9` is monotone. -/
theorem goUnix_mono {a b : Int} (h : a ≤ b) : goUnix a ≤ goUnix b := by
  unfold goUnix
  rw [Int.fdiv_eq_ediv _ (by decide), Int.fdiv_eq_ediv _ (by decide)]
  exact Int.ediv_le_ediv (by decide) h

/-- The whole-seconds truncation of an instant is not after the instant. -/
theorem goUnix_mul_le (x : Int) : goUnix x * nsPerSec ≤ x := by
  unfold goUnix
  rw [Int.fdiv_eq_ediv _ (by decide)]
  exact Int.ediv_mul_le x (by decide)

/-- A successful primary-key lookup exhibits a row of the table. -/
theorem lookup_mem {k : String} {r : Row} {st : Table}
    (h : List.lookup k st = some r) : (k, r) ∈ st := by
  obtain ⟨l₁, l₂, rfl, -⟩ := List.lookup_eq_some_iff.mp h
  exact List.mem_append.mpr (Or.inr (List.mem_cons_self _ _))

/-- C4: the pattern translator is a pure total function that rewrites its
input character by character: each literal `%` becomes `\%`, each literal
`_` becomes `\_`, each `*` becomes the any-sequence wildcard `%`, each `?`
becomes the any-single-character wildcard `_`, and every other character
passes through unchanged; each input character contributes exactly its own
replacement, so a substituted wildcard is never re-escaped. -/
theorem globToSQLLike_char_by_char (s : List Char) :
    globToSQLLike s = (s.map translateChar).flatten := by
  induction s with
  | nil => rfl
  | cons c rest ih => simp [globToSQLLike, translateChar, ih]

/-- C7: `Set(k, v, 0)` stores a `NULL` expiry, so a later `TTL(k)` (with no
intervening write to `k`) returns the no-expiration sentinel `-1` with no
error and requests no deletion. -/
theorem set_zero_ttl_sentinel (st : Table) (nowNs laterNs : Int) (k v : String) :
    storeTTL (storeSet st nowNs k v 0) laterNs k = (Except.ok (-1), []) := by
  simp [storeSet, storeTTL, upsert]

/-- C8: `Del` returns no error absent a storage fault, whether or not the
key is present, and it is idempotent: a second `Del` of the same key
returns the same result and leaves the same table. -/
theorem del_ok_and_idempotent (st : Table) (k : String) :
    (storeDel st k).1 = Except.ok ()
    ∧ storeDel (storeDel st k).2 k = storeDel st k := by
  refine ⟨rfl, ?_⟩
  simp [storeDel, List.filter_filter]

/-- C3 counterexample: with the query and the iteration check both
succeeding, a row-level `Scan` failure on one matched row is skipped, and
`Keys` succeeds with the partial result built from the remaining rows,
instead of returning an error to its caller. -/
theorem keys_scan_error_skipped :
    storeKeys false 0 "*" [RowRes.scanErr, RowRes.ok "a" "string" none] false
      = (Except.ok ["a"], []) := rfl

/-- C3 amended: every storage-collaborator failure occurring during a
synchronous operation — the upsert `Exec` of `Set`, the delete `Exec` of
`Del`, the row fetch of `Get`, `Exists` and `TTL`, the query of `Keys`,
and the post-scan iteration check (`rows.Err()`) of `Keys` — is propagated
to that operation's caller wrapped with operation and key (or pattern)
context, with no deletion requested and no change to the table; the single
exception is a row-level `Scan` failure on one row inside `Keys`' scan
loop, which is logged and the row silently skipped, `Keys` then behaving
exactly as if the failed row were not in the result set. -/
theorem sync_fault_propagation (st : Table) (nowNs ttl : Int) (k v pat : String)
    (rows : List RowRes) (queryErr iterErr : Bool) :
    storeSetFallible true st nowNs k v ttl
      = (Except.error (KVError.storageFault "set" k), st)
    ∧ storeDelFallible true st k
      = (Except.error (KVError.storageFault "delete" k), st)
    ∧ storeGetFallible true st nowNs k
      = (Except.error (KVError.storageFault "get" k), [])
    ∧ storeExistsFallible true st nowNs k
      = (Except.error (KVError.storageFault "exists" k), [])
    ∧ storeTTLFallible true st nowNs k
      = (Except.error (KVError.storageFault "ttl" k), [])
    ∧ storeKeys true nowNs pat rows iterErr
      = (Except.error (KVError.storageFault "query keys" pat), [])
    ∧ storeKeys false nowNs pat rows true
      = (Except.error (KVError.storageFault "iterate keys" pat), [])
    ∧ storeKeys queryErr nowNs pat (RowRes.scanErr :: rows) iterErr
      = storeKeys queryErr nowNs pat rows iterErr := by
  refine ⟨rfl, rfl, rfl, rfl, rfl, rfl, rfl, ?_⟩
  simp [storeKeys, keysLoop]

/-- C5: during `Keys`, a matched row whose kind tag is not `"string"` is
excluded from the result and never enqueued for deletion; a matched expired
row (among the remaining ones) is excluded from the result and enqueued for
asynchronous deletion; every other matched row's key is included in the
result; and in the event order of the call every enqueued deletion is
issued strictly after the scan of the full result set has completed. -/
theorem keys_scan_policy (nowNs : Int) (rows : List RowRes) (iterErr : Bool) :
    (keysLoop nowNs rows).1 = rows.filterMap (fun r =>
      match r with
      | RowRes.ok k t e =>
        if t = "string" ∧ rowExpired nowNs e = false then some k else none
      | RowRes.scanErr => none)
    ∧ (keysLoop nowNs rows).2 = rows.filterMap (fun r =>
      match r with
      | RowRes.ok k t e =>
        if t = "string" ∧ rowExpired nowNs e = true then some k else none
      | RowRes.scanErr => none)
    ∧ (∀ ev ∈ (keysTrace nowNs rows iterErr).take rows.length,
        ∃ r, ev = KeysEvent.scanRow r)
    ∧ (∀ ev ∈ (keysTrace nowNs rows iterErr).drop rows.length,
        ∃ k, ev = KeysEvent.asyncDel k) := by
  refine ⟨?_, ?_, ?_, ?_⟩
  · induction rows with
    | nil => rfl
    | cons r rest ih =>
      cases r with
      | scanErr => simpa [keysLoop] using ih
      | ok k t e =>
        by_cases ht : t = "string"
        · by_cases he : rowExpired nowNs e <;> simp [keysLoop, ht, he, ih]
        · simp [keysLoop, ht, ih]
  · induction rows with
    | nil => rfl
    | cons r rest ih =>
      cases r with
      | scanErr => simpa [keysLoop] using ih
      | ok k t e =>
        by_cases ht : t = "string"
        · by_cases he : rowExpired nowNs e <;> simp [keysLoop, ht, he, ih]
        · simp [keysLoop, ht, ih]
  · intro ev hmem
    rw [keysTrace, show rows.length = (rows.map KeysEvent.scanRow).length from
      (List.length_map _ _).symm, List.take_left] at hmem
    obtain ⟨r, -, rfl⟩ := List.mem_map.mp hmem
    exact ⟨r, rfl⟩
  · intro ev hmem
    rw [keysTrace, show rows.length = (rows.map KeysEvent.scanRow).length from
      (List.length_map _ _).symm, List.drop_left] at hmem
    cases iterErr with
    | true => simp at hmem
    | false =>
      obtain ⟨kk, -, rfl⟩ := List.mem_map.mp (by simpa using hmem)
      exact ⟨kk, rfl⟩

/-- C1 counterexample: at an instant whose `Unix()` second equals the
stored expiration timestamp (here one nanosecond past the whole second),
`Get` and `Exists` treat the key as live, but `TTL` — which compares the
second-granularity expiry instant against the full-precision current
instant — already reports it expired with `ErrKeyNotFound`, so the three
reads do not share one strict-less-than expiry test and `TTL` does not
behave as for a live key at the boundary. -/
theorem ttl_boundary_counterexample :
    goUnix (100 * nsPerSec + 1) = 100
    ∧ (storeGet [("k", ⟨"v", "string", some 100⟩)] (100 * nsPerSec + 1) "k").1
        = Except.ok "v"
    ∧ (storeExists [("k", ⟨"v", "string", some 100⟩)] (100 * nsPerSec + 1) "k").1
        = Except.ok true
    ∧ (storeTTL [("k", ⟨"v", "string", some 100⟩)] (100 * nsPerSec + 1) "k").1
        = Except.error KVError.keyNotFound :=
  ⟨rfl, rfl, rfl, rfl⟩

/-- C1 amended: for a stored `"string"` record with expiration timestamp
`e`, `Get` and `Exists` treat it as expired exactly when `e` is strictly
less than the current time truncated to whole seconds (`time.Now().Unix()`)
— so equality at second granularity is not expired — while `TTL` treats it
as expired exactly when the expiry instant `e·10^9` ns is strictly before
the full-precision current instant, so a record whose timestamp equals the
current second is reported expired by `TTL` at every instant of that second
except its exact first nanosecond. -/
theorem expiry_check_characterization (st : Table) (k v : String) (e nowNs : Int)
    (h : List.lookup k st = some ⟨v, "string", some e⟩) :
    ((storeGet st nowNs k).1 = Except.error KVError.keyNotFound ↔ goUnix nowNs > e)
    ∧ ((storeExists st nowNs k).1 = Except.ok false ↔ goUnix nowNs > e)
    ∧ ((storeTTL st nowNs k).1 = Except.error KVError.keyNotFound
        ↔ e * nsPerSec < nowNs) := by
  refine ⟨?_, ?_, ?_⟩
  · by_cases hgt : goUnix nowNs > e <;> simp [storeGet, h, hgt]
  · by_cases hgt : goUnix nowNs > e <;> simp [storeExists, h, hgt]
  · by_cases hlt : e * nsPerSec < nowNs <;> simp [storeTTL, h, hlt]

/-- C1 amended, boundary instance: with the expiration timestamp equal to
the current whole second, `Get` misses the expiry while `TTL`, one
nanosecond into that second, reports it. -/
theorem expiry_check_characterization_witness :
    ((storeGet [("k", ⟨"v", "string", some 100⟩)] (100 * nsPerSec + 1) "k").1
        = Except.error KVError.keyNotFound ↔ goUnix (100 * nsPerSec + 1) > 100)
    ∧ ((storeExists [("k", ⟨"v", "string", some 100⟩)] (100 * nsPerSec + 1) "k").1
        = Except.ok false ↔ goUnix (100 * nsPerSec + 1) > 100)
    ∧ ((storeTTL [("k", ⟨"v", "string", some 100⟩)] (100 * nsPerSec + 1) "k").1
        = Except.error KVError.keyNotFound ↔ 100 * nsPerSec < 100 * nsPerSec + 1) :=
  expiry_check_characterization _ "k" "v" 100 (100 * nsPerSec + 1) rfl

/-- C2 counterexample: a present row whose kind tag is `"list"` and whose
expiration timestamp (50) is strictly in the past (current second 100)
makes both `Get` and `TTL` fail with `ErrWrongType`, not `ErrKeyNotFound`:
the kind-tag check runs before the expiry check. -/
theorem wrongtype_expired_counterexample :
    goUnix (100 * nsPerSec) > 50
    ∧ (storeGet [("k", ⟨"v", "list", some 50⟩)] (100 * nsPerSec) "k").1
        = Except.error KVError.wrongType
    ∧ (storeTTL [("k", ⟨"v", "list", some 50⟩)] (100 * nsPerSec) "k").1
        = Except.error KVError.wrongType
    ∧ KVError.wrongType ≠ KVError.keyNotFound :=
  ⟨by decide, rfl, rfl, by decide⟩

/-- C2 amended: `Get` and `TTL` check the kind tag before the expiry check,
so every present key whose kind tag is not `"string"` fails with
`ErrWrongType` — whether or not its expiration timestamp is in the past —
and the `ErrWrongType` path never requests any deletion; the
expired-implies-`ErrKeyNotFound` behaviour holds only for `"string"`
records. -/
theorem wrongtype_before_expiry (st : Table) (k : String) (r : Row) (nowNs : Int)
    (h : List.lookup k st = some r) (ht : r.type ≠ "string") :
    storeGet st nowNs k = (Except.error KVError.wrongType, [])
    ∧ storeTTL st nowNs k = (Except.error KVError.wrongType, []) := by
  constructor
  · simp [storeGet, h, ht]
  · simp [storeTTL, h, ht]

/-- C2 amended, instance: an expired `"list"` row yields `ErrWrongType`
from `Get` and `TTL`, with no deletion requested. -/
theorem wrongtype_before_expiry_witness :
    storeGet [("k", ⟨"v", "list", some 50⟩)] (100 * nsPerSec) "k"
      = (Except.error KVError.wrongType, [])
    ∧ storeTTL [("k", ⟨"v", "list", some 50⟩)] (100 * nsPerSec) "k"
      = (Except.error KVError.wrongType, []) :=
  wrongtype_before_expiry _ "k" ⟨"v", "list", some 50⟩ (100 * nsPerSec) rfl
    (by decide)

/-- C6 counterexample: at the instant 100.5 s, `Set("k", "v", 1 ns)` stores
the truncated expiration timestamp 100, and with no time advance at all
`Get` still returns the value but `TTL` fails with `ErrKeyNotFound`
instead of returning a strictly positive duration at most the TTL. -/
theorem set_ttl_subsecond_counterexample :
    (0 : Int) < 1
    ∧ (storeGet (storeSet [] (100 * nsPerSec + 500000000) "k" "v" 1)
        (100 * nsPerSec + 500000000) "k").1 = Except.ok "v"
    ∧ (storeTTL (storeSet [] (100 * nsPerSec + 500000000) "k" "v" 1)
        (100 * nsPerSec + 500000000) "k").1 = Except.error KVError.keyNotFound :=
  ⟨by decide, rfl, rfl⟩

/-- C6 amended: immediately after `Set(k, v, t)` with `t > 0` and no time
advance, `Get(k)` returns `v` with no error; `TTL(k)` compares the
second-truncated expiry instant `⌊now + t⌋ₛ·10^9` with the precise current
instant: if that truncated instant is already strictly in the past `TTL`
fails with `ErrKeyNotFound`, and otherwise it returns the remaining
duration, which is nonnegative (possibly zero) and at most `t`. -/
theorem set_then_get_ttl (st : Table) (nowNs ttl : Int) (k v : String)
    (h : 0 < ttl) :
    (storeGet (storeSet st nowNs k v ttl) nowNs k).1 = Except.ok v
    ∧ (goUnix (nowNs + ttl) * nsPerSec < nowNs →
        (storeTTL (storeSet st nowNs k v ttl) nowNs k).1
          = Except.error KVError.keyNotFound)
    ∧ (nowNs ≤ goUnix (nowNs + ttl) * nsPerSec →
        (storeTTL (storeSet st nowNs k v ttl) nowNs k).1
          = Except.ok (goUnix (nowNs + ttl) * nsPerSec - nowNs)
        ∧ 0 ≤ goUnix (nowNs + ttl) * nsPerSec - nowNs
        ∧ goUnix (nowNs + ttl) * nsPerSec - nowNs ≤ ttl) := by
  have he : List.lookup k (storeSet st nowNs k v ttl)
      = some ⟨v, "string", some (goUnix (nowNs + ttl))⟩ := by
    simp [storeSet, upsert, h]
  have hmono : ¬ (goUnix nowNs > goUnix (nowNs + ttl)) :=
    not_lt.mpr (goUnix_mono (by omega))
  refine ⟨?_, ?_, ?_⟩
  · simp [storeGet, he, hmono]
  · intro hlt
    simp [storeTTL, he, hlt]
  · intro hge
    have hnlt : ¬ (goUnix (nowNs + ttl) * nsPerSec < nowNs) := not_lt.mpr hge
    have hb : goUnix (nowNs + ttl) * nsPerSec ≤ nowNs + ttl := goUnix_mul_le _
    exact ⟨by simp [storeTTL, he, hnlt], by omega, by omega⟩

/-- C6 amended, instance: a one-second TTL set exactly on a second boundary
gives back the value and the full remaining second. -/
theorem set_then_get_ttl_witness :
    (storeGet (storeSet [] 0 "k" "v" nsPerSec) 0 "k").1 = Except.ok "v" :=
  (set_then_get_ttl [] 0 nsPerSec "k" "v" (by decide)).1

/-- C9: `RunCleanup` with a non-positive interval is rejected: no sweeper
is started, the rejection is reported, no error or crash results (the
function merely returns), and lazy expiry on the read paths is untouched —
an expired record is still reported absent by `Get` and `Exists`. -/
theorem cleanup_rejects_nonpositive (dbOpen : Bool) (intervalNs : Int)
    (hi : intervalNs ≤ 0) :
    (runCleanup dbOpen intervalNs).started = false
    ∧ (runCleanup dbOpen intervalNs).rejectionReported = true
    ∧ ∀ (st : Table) (k v : String) (e nowNs : Int),
        List.lookup k st = some ⟨v, "string", some e⟩ → goUnix nowNs > e →
        (storeGet st nowNs k).1 = Except.error KVError.keyNotFound
        ∧ (storeExists st nowNs k).1 = Except.ok false := by
  refine ⟨?_, ?_, ?_⟩
  · cases dbOpen <;> simp [runCleanup, hi]
  · cases dbOpen <;> simp [runCleanup, hi]
  · intro st k v e nowNs hl hgt
    exact ⟨by simp [storeGet, hl, hgt], by simp [storeExists, hl, hgt]⟩

/-- C9 instance: a zero interval starts nothing, and an expired record is
still invisible to `Get`. -/
theorem cleanup_rejects_nonpositive_witness :
    (runCleanup true 0).started = false
    ∧ (storeGet [("k", ⟨"v", "string", some 5⟩)] (6 * nsPerSec) "k").1
        = Except.error KVError.keyNotFound := by
  refine ⟨(cleanup_rejects_nonpositive true 0 (by decide)).1, ?_⟩
  exact ((cleanup_rejects_nonpositive true 0 (by decide)).2.2
    [("k", ⟨"v", "string", some 5⟩)] "k" "v" 5 (6 * nsPerSec) rfl (by decide)).1

/-- Every mutating statement of the public surface preserves the invariant
that all rows carry the kind tag `"string"`. -/
theorem applyW_allString {st : Table} (hst : allStringRows st) (op : WOp) :
    allStringRows (applyW st op) := by
  cases op with
  | set kk vv now ttl =>
    intro p hp
    rcases List.mem_cons.mp hp with h1 | h2
    · rw [h1]
    · exact hst p (List.mem_filter.mp h2).1
  | del kk =>
    intro p hp
    exact hst p (List.mem_filter.mp hp).1
  | sweep now =>
    intro p hp
    exact hst p (List.mem_filter.mp hp).1

/-- The all-`"string"` invariant holds in every reachable table. -/
theorem runOps_allString (ops : List WOp) : allStringRows (runOps ops) := by
  suffices h : ∀ st : Table, allStringRows st → allStringRows (ops.foldl applyW st) by
    exact h [] (by intro p hp; cases hp)
  induction ops with
  | nil => intro st hst; exact hst
  | cons op rest ih => intro st hst; exact ih _ (applyW_allString hst op)

/-- C10: starting from the freshly created (empty) table, every table
reachable through the store's own mutating statements — `Set`'s upsert
(which always writes the kind tag `"string"`), `Del`'s delete-by-key (also
issued by every lazy asynchronous deletion), and the sweeper's bulk delete
— contains only `"string"` rows, so `Get` and `TTL` can never return
`ErrWrongType` on such a table. -/
theorem reachable_states_string_kind (st : Table)
    (h : ∃ ops : List WOp, st = runOps ops) (k : String) (nowNs : Int) :
    allStringRows st
    ∧ (storeGet st nowNs k).1 ≠ Except.error KVError.wrongType
    ∧ (storeTTL st nowNs k).1 ≠ Except.error KVError.wrongType := by
  obtain ⟨ops, rfl⟩ := h
  have hall : allStringRows (runOps ops) := runOps_allString ops
  refine ⟨hall, ?_, ?_⟩
  · cases hl : List.lookup k (runOps ops) with
    | none => simp [storeGet, hl]
    | some r =>
      have hr : r.type = "string" := hall _ (lookup_mem hl)
      cases hre : r.expiresAt with
      | none => simp [storeGet, hl, hr, hre]
      | some e =>
        by_cases hgt : goUnix nowNs > e <;> simp [storeGet, hl, hr, hre, hgt]
  · cases hl : List.lookup k (runOps ops) with
    | none => simp [storeTTL, hl]
    | some r =>
      have hr : r.type = "string" := hall _ (lookup_mem hl)
      cases hre : r.expiresAt with
      | none => simp [storeTTL, hl, hr, hre]
      | some e =>
        by_cases hlt : e * nsPerSec < nowNs <;> simp [storeTTL, hl, hr, hre, hlt]

/-- C10 instance: after one `Set`, `Get` cannot report `ErrWrongType`. -/
theorem reachable_states_string_kind_witness :
    (storeGet (runOps [WOp.set "a" "v" 0 0]) 0 "a").1
      ≠ Except.error KVError.wrongType :=
  (reachable_states_string_kind (runOps [WOp.set "a" "v" 0 0])
    ⟨[WOp.set "a" "v" 0 0], rfl⟩ "a" 0).2.1

end MKVStore
